import Mathlib

/-
  Verification of the task lifecycle and dependency engine of the
  evergreen CI orchestrator (model/task/task.go), as a shallow embedding.

  Task records are embedded as a Lean structure mirroring the Go struct
  fields the verified operations touch; `time.Time` values are embedded
  as `Int` nanoseconds with the zero time at 0, and the document store is
  a `List Task`.  Conditional document updates become pure functions on
  that list.
-/

namespace task

/-- Modelled from the spec: task status constant of the evergreen package
(the package is not under src/); §4.3 state U "undispatched". -/
def TaskUndispatched : String := "undispatched"

/-- Modelled from the spec: task status constant of the evergreen package;
§4.3 state D "dispatched". -/
def TaskDispatched : String := "dispatched"

/-- Modelled from the spec: task status constant of the evergreen package;
§4.3 state R "started". -/
def TaskStarted : String := "started"

/-- Modelled from the spec: task status constant of the evergreen package;
§4.3 terminal state S "succeeded". -/
def TaskSucceeded : String := "succeeded"

/-- Modelled from the spec: task status constant of the evergreen package;
§4.3 terminal state F "failed". -/
def TaskFailed : String := "failed"

/-- Modelled from the spec: the evergreen package's list of completed
(terminal) task statuses, used by the reset and archive guards
(`status ∈ terminal`, §4.3). -/
def TaskCompletedStatuses : List String := [TaskSucceeded, TaskFailed]

/-- Modelled from the spec: the evergreen package's DISABLED_PRIORITY; a
schedulable task needs `priority > DISABLED_PRIORITY` (§4.2, §4.6). -/
def DisabledTaskPriority : Int := -1

/-- AllStatuses, the "any status" dependency requirement (task.go). -/
def AllStatuses : String := "*"

/-- ExecutionPlatformHost (task.go). -/
def ExecutionPlatformHost : String := "host"

/-- ExecutionPlatformContainer (task.go). -/
def ExecutionPlatformContainer : String := "container"

/-- maxContainerAllocationAttempts (task.go): the maximum number of times a
container task is allowed to try to allocate a container per execution. -/
def maxContainerAllocationAttempts : Int := 5

/-- Modelled from the spec: utility.ZeroTime (the utility package is not
under src/); the zero time, embedded as 0 nanoseconds. -/
def ZeroTime : Int := 0

/-- Modelled from the spec: utility.IsZeroTime (the utility package is not
under src/); §4.3 "If start_time is zero". -/
def IsZeroTime (t : Int) : Bool := t == 0

/-- Dependency (task.go): an edge of a task's depends_on array. -/
structure Dependency where
  TaskId : String
  Status : String
  Unattainable : Bool
  Finished : Bool
deriving DecidableEq

/-- apimodels.TaskEndDetail, the end-of-task detail record (the Go `Type`
field is spelled `Typ`, `Type` being reserved in Lean). -/
structure TaskEndDetail where
  Status : String
  Typ : String
  Description : String
  TimedOut : Bool
deriving DecidableEq

instance : Inhabited TaskEndDetail := ⟨⟨"", "", "", false⟩⟩

/-- AbortInfo (task.go). -/
structure AbortInfo where
  User : String
  TaskID : String
  NewVersion : String
  PRClosed : Bool
deriving DecidableEq

instance : Inhabited AbortInfo := ⟨⟨"", "", "", false⟩⟩

/-- HostCreateDetail (task.go). -/
structure HostCreateDetail where
  HostId : String
  Error : String
deriving DecidableEq

/-- Task (task.go): the task entity, restricted to the fields the verified
operations read or write.  Time fields are Int nanoseconds; unset (bson
$unset) string/bool/list fields take their zero values. -/
structure Task where
  Id : String := ""
  Secret : String := ""
  CreateTime : Int := 0
  IngestTime : Int := 0
  DispatchTime : Int := 0
  ScheduledTime : Int := 0
  StartTime : Int := 0
  FinishTime : Int := 0
  ActivatedTime : Int := 0
  DependenciesMetTime : Int := 0
  ContainerAllocatedTime : Int := 0
  Version : String := ""
  Priority : Int := 0
  LastHeartbeat : Int := 0
  Activated : Bool := false
  ActivatedBy : String := ""
  DeactivatedForDependency : Bool := false
  ContainerAllocated : Bool := false
  ContainerAllocationAttempts : Int := 0
  BuildId : String := ""
  DistroId : String := ""
  DependsOn : List Dependency := []
  UnattainableDependency : Bool := false
  OverrideDependencies : Bool := false
  DisplayName : String := ""
  HostId : String := ""
  PodID : String := ""
  ExecutionPlatform : String := ""
  AgentVersion : String := ""
  CanReset : Bool := false
  Execution : Int := 0
  OldTaskId : String := ""
  Archived : Bool := false
  Requester : String := ""
  Status : String := ""
  Details : TaskEndDetail := default
  Aborted : Bool := false
  AbortInfo : AbortInfo := default
  TimeTaken : Int := 0
  DisplayOnly : Bool := false
  ExecutionTasks : List String := []
  LatestParentExecution : Int := 0
  ResetWhenFinished : Bool := false
  ResetFailedWhenFinished : Bool := false
  ResultsService : String := ""
  ResultsFailed : Bool := false
  HasCedarResults : Bool := false
  LogServiceVersion : Option Int := none
  HostCreateDetails : List HostCreateDetail := []
deriving DecidableEq

/-- (Task).Blocked (task.go): a task with overridden dependencies is never
blocked; otherwise it is blocked when some depends_on edge is unattainable. -/
def Task.Blocked (t : Task) : Bool :=
  if t.OverrideDependencies then false
  else t.DependsOn.any (·.Unattainable)

/-- (Task).IsContainerTask (task.go). -/
def Task.IsContainerTask (t : Task) : Bool :=
  t.ExecutionPlatform == ExecutionPlatformContainer

/-- (Task).RemainingContainerAllocationAttempts (task.go). -/
def Task.RemainingContainerAllocationAttempts (t : Task) : Int :=
  maxContainerAllocationAttempts - t.ContainerAllocationAttempts

/-- (Task).isContainerScheduled (task.go): the task is in a state where it
should eventually dispatch to run on a container. -/
def Task.isContainerScheduled (t : Task) : Bool :=
  if !t.IsContainerTask then false
  else if !(t.Status == TaskUndispatched) then false
  else if !t.Activated then false
  else if t.Priority ≤ DisabledTaskPriority then false
  else if !t.OverrideDependencies
          && t.DependsOn.any (fun dep => dep.Unattainable || !dep.Finished) then false
  else true

/-- (Task).ShouldAllocateContainer (task.go). -/
def Task.ShouldAllocateContainer (t : Task) : Bool :=
  if t.ContainerAllocated then false
  else if t.RemainingContainerAllocationAttempts == 0 then false
  else t.isContainerScheduled

/-- The loop body of (Task).SatisfiesDependency (task.go): scan depends_on
in order; the first edge matching the upstream id whose required status is
one of the recognized values decides; an edge with an unrecognized required
status falls through to the next iteration. -/
def satisfiesDependencyLoop (deps : List Dependency) (depTask : Task) : Bool :=
  match deps with
  | [] => false
  | dep :: rest =>
    if dep.TaskId == depTask.Id then
      if dep.Status == TaskSucceeded || dep.Status == "" then
        depTask.Status == TaskSucceeded
      else if dep.Status == TaskFailed then
        depTask.Status == TaskFailed
      else if dep.Status == AllStatuses then
        depTask.Status == TaskFailed || depTask.Status == TaskSucceeded || depTask.Blocked
      else satisfiesDependencyLoop rest depTask
    else satisfiesDependencyLoop rest depTask

/-- (Task).SatisfiesDependency (task.go). -/
def Task.SatisfiesDependency (t depTask : Task) : Bool :=
  satisfiesDependencyLoop t.DependsOn depTask

/-- The spec's dependency-requirement table (§4.2): whether an upstream task
meets one required status.  Stated from the spec's words, to compare with
the source's SatisfiesDependency. -/
def depStatusMet (required : String) (upstream : Task) : Bool :=
  if required == TaskSucceeded || required == "" then
    upstream.Status == TaskSucceeded
  else if required == TaskFailed then
    upstream.Status == TaskFailed
  else if required == AllStatuses then
    upstream.Status == TaskFailed || upstream.Status == TaskSucceeded || upstream.Blocked
  else false

/-- The claim's reading of SatisfiesDependency, from the spec's words: true
iff SOME depends_on edge names the upstream and its requirement is met. -/
def SatisfiesDependencySpec (t upstream : Task) : Bool :=
  t.DependsOn.any (fun d => d.TaskId == upstream.Id && depStatusMet d.Status upstream)

/-- Modelled from the spec: a conditional UpdateOne of the store (§4.1,
§5) updates the first document matching the filter.  On zero matches the
db layer (not under src/) reports a not-found error, the spec's
PreconditionViolation (§7.2); the in-src callers test for it with
adb.ResultsNotFound. -/
def updateFirst (p : Task → Bool) (f : Task → Task) : List Task → List Task
  | [] => []
  | u :: rest => if p u then f u :: rest else u :: updateFirst p f rest

/-- Modelled from the spec: UpdateOne and UpdateOneContext (the db package
is not under src/): update the first matching document; a zero-match
update returns a not-found error and changes nothing (§7.2). -/
def updateOneResult (p : Task → Bool) (f : Task → Task) (db : List Task) :
    Option String × List Task :=
  match db.find? p with
  | none => (some "document not found", db)
  | some _ => (none, updateFirst p f db)

/-- (Task).MarkDependenciesFinished (task.go): for a display task the
multi-document update is skipped entirely (tasks are not allowed to depend
on display tasks); otherwise every task with a depends_on edge naming this
task has that edge's finished flag set by one array-filter multi-update. -/
def MarkDependenciesFinished (db : List Task) (t : Task) (finished : Bool) :
    List Task :=
  if t.DisplayOnly then db
  else
    db.map fun u =>
      if u.DependsOn.any (fun d => d.TaskId == t.Id) then
        { u with DependsOn := u.DependsOn.map fun d =>
            if d.TaskId == t.Id then { d with Finished := finished } else d }
      else u

/-- The -2h offset of (Task).MarkEnd (task.go), in nanoseconds. -/
def twoHours : Int := 7200000000000

/-- Modelled from the spec: (apimodels.TaskEndDetail).IsEmpty (apimodels is
not under src/); §4.3 "If details is empty, default to status=failed". -/
def TaskEndDetail.IsEmpty (d : TaskEndDetail) : Bool := d == default

/-- (Task).MarkEnd (task.go), restricted to the written task record: if the
start time is zero it is backfilled from the finish time and ingest time,
time_taken is computed, an empty detail defaults to failed, and the
terminal status, finish time, details and container-deallocation are set. -/
def MarkEnd (t : Task) (finishTime : Int) (detail : TaskEndDetail) : Task :=
  let t1 :=
    if IsZeroTime t.StartTime then
      let timedOutStart := finishTime - twoHours
      if timedOutStart < t.IngestTime then { t with StartTime := t.IngestTime }
      else { t with StartTime := timedOutStart }
    else t
  let t2 := { t1 with TimeTaken := finishTime - t1.StartTime }
  let d := if detail.IsEmpty then { (default : TaskEndDetail) with Status := TaskFailed }
           else detail
  { t2 with Status := d.Status, FinishTime := finishTime, Details := d,
            ContainerAllocated := false, ContainerAllocatedTime := 0 }

/-- (Task).markAsHostDispatchedWithFunc (task.go): the update applied to
the task record on host dispatch ($unset fields take zero values). -/
def markAsHostDispatchedWithFunc (t : Task)
    (hostID distroID agentRevision : String) (dispatchTime : Int) : Task :=
  { t with DispatchTime := dispatchTime, Status := TaskDispatched,
           HostId := hostID, LastHeartbeat := dispatchTime,
           DistroId := distroID, AgentVersion := agentRevision,
           Aborted := false, AbortInfo := default, Details := default }

/-- (Task).markAsHostUndispatchedWithFunc (task.go): the update applied to
the task record on host undispatch ($unset fields take zero values). -/
def markAsHostUndispatchedWithFunc (t : Task) : Task :=
  { t with Status := TaskUndispatched, DispatchTime := ZeroTime,
           LastHeartbeat := ZeroTime, HostId := "", AgentVersion := "",
           Aborted := false, AbortInfo := default, Details := default }

/-- Modelled from the spec: the needsContainerAllocation query (the task db
helpers are not under src/): a task needs a container allocated when it is
scheduled to run on a container and no container is allocated yet (§4.6
FindContainerSchedulable, "container_allocated=false (needs allocation)"). -/
def needsContainerAllocation (u : Task) : Bool :=
  u.isContainerScheduled && !u.ContainerAllocated

/-- The update document of (Task).MarkAsContainerAllocated (task.go):
$set container_allocated and its time, $inc the attempt counter. -/
def containerAllocatedUpdate (allocatedAt : Int) (u : Task) : Task :=
  { u with ContainerAllocated := true, ContainerAllocatedTime := allocatedAt,
           ContainerAllocationAttempts := u.ContainerAllocationAttempts + 1 }

/-- (Task).MarkAsContainerAllocated (task.go): guards on the in-memory
receiver, then a conditional UpdateOne whose filter restates
needsContainerAllocation plus the attempt bound; zero modified documents is
an error.  Returns (error?, store, in-memory receiver). -/
def MarkAsContainerAllocated (db : List Task) (t : Task) (allocatedAt : Int) :
    Option String × List Task × Task :=
  if t.ContainerAllocated then
    (some "cannot allocate a container task if it is currently allocated", db, t)
  else if t.RemainingContainerAllocationAttempts == 0 then
    (some "task execution has hit the max allowed allocation attempts", db, t)
  else
    let q := fun u => u.Id == t.Id && needsContainerAllocation u &&
      decide (u.ContainerAllocationAttempts < maxContainerAllocationAttempts)
    match db.find? q with
    | none => (some "task was not updated", db, t)
    | some _ =>
      (none, updateFirst q (containerAllocatedUpdate allocatedAt) db,
       { t with ContainerAllocated := true, ContainerAllocatedTime := allocatedAt })

/-- resetTaskUpdate (task.go): the canonical reset mutation applied to a
task document — reactivate, fresh secret, undispatched status, cleared
time/result/host fields ($unset fields take zero values), and the cached
unattainable_dependency recomputed from the in-document depends_on array
($anyElementTrue over depends_on.unattainable, false for no array). -/
def resetTaskUpdate (now : Int) (newSecret : String) (u : Task) : Task :=
  { u with Activated := true, ActivatedTime := now, Secret := newSecret,
           Status := TaskUndispatched, DispatchTime := ZeroTime,
           StartTime := ZeroTime, ScheduledTime := ZeroTime,
           FinishTime := ZeroTime, DependenciesMetTime := ZeroTime,
           TimeTaken := 0, LastHeartbeat := ZeroTime,
           ContainerAllocationAttempts := 0,
           UnattainableDependency := u.DependsOn.any (·.Unattainable),
           Details := default, LogServiceVersion := none, ResultsService := "",
           ResultsFailed := false, HasCedarResults := false,
           ResetWhenFinished := false, ResetFailedWhenFinished := false,
           AgentVersion := "", HostId := "", PodID := "",
           HostCreateDetails := [], OverrideDependencies := false,
           CanReset := false }

/-- The filter of (Task).Reset and ResetTasks (task.go): the document id,
a completed status, and can_reset. -/
def resetMatches (taskID : String) (u : Task) : Bool :=
  u.Id == taskID && TaskCompletedStatuses.contains u.Status && u.CanReset

/-- (Task).Reset (task.go): one conditional UpdateOneContext applying
resetTaskUpdate under the resetMatches filter. -/
def Reset (db : List Task) (t : Task) (now : Int) (newSecret : String) :
    Option String × List Task :=
  updateOneResult (resetMatches t.Id) (resetTaskUpdate now newSecret) db

/-- ResetTasks (task.go): the same update as (Task).Reset applied by one
UpdateAll over the given task ids (UpdateAll reports no error on zero
matches). -/
def ResetTasks (db : List Task) (tasks : List Task) (now : Int)
    (newSecret : String) : List Task :=
  if tasks.isEmpty then db
  else
    let taskIDs := tasks.map (·.Id)
    db.map fun u =>
      if taskIDs.contains u.Id && TaskCompletedStatuses.contains u.Status
         && u.CanReset then
        resetTaskUpdate now newSecret u
      else u

/-- Modelled from the spec: MakeOldID (the task db helpers are not under
src/); §4.3 archive protocol, archived id = live id + "_" + execution. -/
def MakeOldID (taskID : String) (execution : Int) : String :=
  taskID ++ "_" ++ toString execution

/-- (Task).makeArchivedTask (task.go): the archived copy of a task — the
rewritten id, a pointer to the live id, and the archived flag; every other
field is the live record's. -/
def makeArchivedTask (t : Task) : Task :=
  { t with Id := MakeOldID t.Id t.Execution, OldTaskId := t.Id, Archived := true }

/-- Modelled from the spec: inserting an archived record into old_tasks is
idempotent on a duplicate id (§4.3 archive protocol step 3; Archive
ignores IsDuplicateKey errors). -/
def insertOld (oldDb : List Task) (doc : Task) : List Task :=
  if oldDb.any (fun u => u.Id == doc.Id) then oldDb else oldDb ++ [doc]

/-- Modelled from the spec: updateDisplayTasksAndTasksExpression (the task
db helpers are not under src/); §4.3 archive protocol step 4 updates the
live record with can_reset=true and clears the abort flag. -/
def updateDisplayTasksAndTasks (u : Task) : Task :=
  { u with CanReset := true, Aborted := false }

/-- The live-record filter of (Task).Archive and ArchiveMany (task.go):
the id, a completed status, and can_reset missing or false. -/
def archiveMatches (taskID : String) (u : Task) : Bool :=
  u.Id == taskID && TaskCompletedStatuses.contains u.Status && !u.CanReset

/-- (Task).IsRestartFailedOnly (task.go). -/
def Task.IsRestartFailedOnly (t : Task) : Bool :=
  t.ResetFailedWhenFinished && !t.ResetWhenFinished

/-- Modelled from the spec: FailedTasksByIds (the task db helpers are not
under src/) selects the failed tasks among the given ids (§4.3 archive
protocol step 5, "only failed execution tasks are progressed"). -/
def failedTaskByIds (ids : List String) (u : Task) : Bool :=
  ids.contains u.Id && u.Status == TaskFailed

/-- The per-display-task gathering loop of ArchiveMany (task.go): which
execution-task documents of one display task are archived and progressed. -/
def archiveManyExecTasks (db : List Task) (t : Task) : List Task :=
  if t.IsRestartFailedOnly then db.filter (failedTaskByIds t.ExecutionTasks)
  else db.filter fun u =>
    t.ExecutionTasks.contains u.Id && TaskCompletedStatuses.contains u.Status

/-- ArchiveMany / archiveAll (task.go): archive completed tasks and display
tasks in one transaction — insert the archived copies (duplicate ids
skipped), set can_reset on the matching live records, advance
latest_parent_execution on every execution task of an archived display,
and progress the archived execution tasks to that execution. -/
def ArchiveMany (db oldDb : List Task) (tasks : List Task) : List Task × List Task :=
  let completed := tasks.filter (fun t => TaskCompletedStatuses.contains t.Status)
  let allTaskIds := completed.map (·.Id)
  let displays := completed.filter (fun t => t.DisplayOnly && !t.ExecutionTasks.isEmpty)
  let execTaskIds := displays.flatMap (·.ExecutionTasks)
  let restartedExecTasks := displays.flatMap (archiveManyExecTasks db)
  let toUpdateExecTaskIds := restartedExecTasks.map (·.Id)
  let archivedTasks := completed.map makeArchivedTask ++ restartedExecTasks.map makeArchivedTask
  let oldDb2 := archivedTasks.foldl insertOld oldDb
  let db2 := db.map fun u =>
    if allTaskIds.contains u.Id && TaskCompletedStatuses.contains u.Status
       && !u.CanReset then
      updateDisplayTasksAndTasks u
    else u
  let db3 := db2.map fun u =>
    if execTaskIds.contains u.Id then
      { u with LatestParentExecution := u.LatestParentExecution + 1 }
    else u
  let db4 := db3.map fun u =>
    if toUpdateExecTaskIds.contains u.Id then
      { u with Execution := u.LatestParentExecution, CanReset := true,
               Aborted := false, AbortInfo := default,
               OverrideDependencies := false }
    else u
  (db4, oldDb2)

/-- (Task).Archive (task.go): skip unless the status is completed; a
display task with execution tasks goes through ArchiveMany; otherwise the
archived copy is inserted into old_tasks (a duplicate id is tolerated) and
the live record is updated with can_reset under the archiveMatches filter
(a zero-match not-found error is treated as already archived and returns
nil).  Returns (live store, old_tasks store). -/
def Archive (db oldDb : List Task) (t : Task) : List Task × List Task :=
  if !(TaskCompletedStatuses.contains t.Status) then (db, oldDb)
  else if t.DisplayOnly && !t.ExecutionTasks.isEmpty then
    ArchiveMany db oldDb [t]
  else
    let archiveTask := makeArchivedTask t
    let oldDb2 := insertOld oldDb archiveTask
    (updateFirst (archiveMatches t.Id) updateDisplayTasksAndTasks db, oldDb2)

/-- getRecursiveDependenciesDown (task.go): all tasks recursively depending
on the given ids.  Each round queries the store for tasks with a
depends_on edge naming a frontier id, keeps the unvisited ones, and
recurses on them; the Go recursion terminates because the visited map
grows, which the embedding expresses with fuel (one unit per round never
exceeds the store size). -/
def getRecursiveDependenciesDown (db : List Task) :
    Nat → List String → List String → List Task
  | 0, _, _ => []
  | Nat.succ fuel, tasks, taskMap =>
    let taskMap2 := taskMap ++ tasks
    let dependOnUsTasks :=
      db.filter (fun u => u.DependsOn.any (fun d => tasks.contains d.TaskId))
    let newDeps := dependOnUsTasks.filter (fun u => !taskMap2.contains u.Id)
    if newDeps.isEmpty then []
    else newDeps ++
      getRecursiveDependenciesDown db fuel (newDeps.map (·.Id)) taskMap2

/-- A dependency edge of the topologicalSort graph (task.go) from a task of
the set to itself: gonum's simple.DirectedGraph.SetEdge panics on a self
edge, the deferred recover logs it, and topologicalSort then returns nil
tasks with a nil error. -/
def topoHasSelfEdge (tasks : List Task) : Bool :=
  tasks.any (fun u => u.DependsOn.any (fun d => d.TaskId == u.Id))

/-- A node with no incoming edge among the remaining nodes: edges run from
a dependency to its dependent, and are only added when the dependency is
itself a node of the set (task.go topologicalSort). -/
def topoReady (remaining : List Task) (u : Task) : Bool :=
  !u.DependsOn.any (fun d => remaining.any (fun v => v.Id == d.TaskId))

/-- The iteration of topo.Sort (task.go, via gonum): repeatedly remove the
nodes with no incoming edge; an iteration that removes nothing while nodes
remain is a cycle, reported as an error (none). -/
def topoKahn : Nat → List Task → Option (List Task)
  | 0, remaining => if remaining.isEmpty then some [] else none
  | Nat.succ fuel, remaining =>
    if remaining.isEmpty then some []
    else
      let ready := remaining.filter (topoReady remaining)
      if ready.isEmpty then none
      else
        match topoKahn fuel (remaining.filter (fun u => !topoReady remaining u)) with
        | none => none
        | some rest => some (ready ++ rest)

/-- topologicalSort (task.go): build the dependency graph over the given
tasks and sort it topologically; a cycle is an error (none), and a self
edge makes the gonum graph panic, which the deferred recover turns into a
nil result with a nil error (some []). -/
def topologicalSort (tasks : List Task) : Option (List Task) :=
  if topoHasSelfEdge tasks then some []
  else topoKahn tasks.length tasks

/-- The first loop of ActivateDeactivatedDependencies (task.go): walk the
sorted tasks accumulating the visited map (every sorted id) and, for each
deactivated-for-dependency candidate, the dependency ids to fetch — those
in neither the seed set nor the visited map so far.  Returns tasksToGet. -/
def adGatherTasksToGet (taskMap : List String) (sorted : List Task) : List String :=
  (sorted.foldl (fun (st : List String × List String) u =>
      let depTaskMap := st.1 ++ [u.Id]
      if u.Activated || !u.DeactivatedForDependency then (depTaskMap, st.2)
      else
        (depTaskMap, st.2 ++
          (u.DependsOn.filter (fun d =>
            !taskMap.contains d.TaskId && !depTaskMap.contains d.TaskId)).map (·.TaskId)))
    ([], [])).2

/-- The missingTaskMap lookup of ActivateDeactivatedDependencies (task.go):
the fetched tasks are those of the store with an id in tasksToGet; a
lookup miss yields the zero Task, whose Activated is false. -/
def adMissingActivated (db : List Task) (tasksToGet : List String) (x : String) : Bool :=
  match (db.filter (fun u => tasksToGet.contains u.Id)).find? (fun u => u.Id == x) with
  | some u => u.Activated
  | none => false

/-- The second loop's body of ActivateDeactivatedDependencies (task.go):
skip tasks that are activated or not deactivated-for-dependency; a
candidate joins the activation set when every dependency is already in the
set, in the seed set, or fetched as activated. -/
def adActivationStep (taskMap : List String) (missingActivated : String → Bool)
    (acc : List Task) (u : Task) : List Task :=
  if u.Activated || !u.DeactivatedForDependency then acc
  else if u.DependsOn.all (fun d =>
      acc.any (fun s => s.Id == d.TaskId) || taskMap.contains d.TaskId
      || missingActivated d.TaskId) then acc ++ [u]
  else acc

/-- The activation set tasksToActivate of ActivateDeactivatedDependencies
(task.go), accumulated over the topologically sorted downstream tasks. -/
def adSelect (taskMap : List String) (missingActivated : String → Bool)
    (sorted : List Task) : List Task :=
  sorted.foldl (adActivationStep taskMap missingActivated) []

/-- The multi-update document of ActivateDeactivatedDependencies (task.go):
activate, clear deactivated_for_dependency, record the caller and time,
and recompute the cached unattainable_dependency from the in-document
depends_on array ($anyElementTrue, false for no array). -/
def activatedDependencyUpdate (caller : String) (now : Int) (u : Task) : Task :=
  { u with Activated := true, DeactivatedForDependency := false,
           ActivatedBy := caller, ActivatedTime := now,
           UnattainableDependency := u.DependsOn.any (·.Unattainable) }

/-- ActivateDeactivatedDependencies (task.go): activate the downstream
tasks that were deactivated for a dependency, when all their dependencies
are in the seed set, activated by this same pass, or already activated.
The downstream closure is topologically sorted (an error aborts the pass),
the candidates are selected in that order, and one UpdateAll applies the
activation update to the selected ids. -/
def ActivateDeactivatedDependencies (db : List Task) (tasks : List String)
    (caller : String) (now : Int) : Option (List Task) :=
  let tasksDependingOnTheseTasks :=
    getRecursiveDependenciesDown db (db.length + 1) tasks []
  match topologicalSort tasksDependingOnTheseTasks with
  | none => none
  | some sortedDependencies =>
    let tasksToGet := adGatherTasksToGet tasks sortedDependencies
    let tasksToActivate :=
      adSelect tasks (adMissingActivated db tasksToGet) sortedDependencies
    if tasksToActivate.isEmpty then some db
    else
      some (db.map fun u =>
        if tasksToActivate.any (fun s => s.Id == u.Id) then
          activatedDependencyUpdate caller now u
        else u)

/-- Modelled from the spec: FindAllTasksFromVersionWithDependencies (the
task db helpers are not under src/); §4.4 CircularDependencies enumerates
the tasks of the version that have depends_on edges. -/
def tasksFromVersionWithDependencies (db : List Task) (version : String) :
    List Task :=
  db.filter (fun u => u.Version == version && !u.DependsOn.isEmpty)

/-- The adjacency of the dependencyMap of CircularDependencies (task.go):
the dependency ids of the task with the given id (empty off the map). -/
def depAdjacency (tasksWithDeps : List Task) (x : String) : List String :=
  match tasksWithDeps.find? (fun u => u.Id == x) with
  | some u => u.DependsOn.map (·.TaskId)
  | none => []

/-- One round of the reachable-set closure over an adjacency function. -/
def reachStep (adj : String → List String) (frontier : List String) : List String :=
  frontier ++ (frontier.flatMap adj).filter (fun y => !frontier.contains y)

/-- The set of nodes reachable from a start node (the start included),
closed under the adjacency function within the given fuel. -/
def reachSet (adj : String → List String) : Nat → List String → List String
  | 0, frontier => frontier
  | Nat.succ fuel, frontier =>
    let nxt := reachStep adj frontier
    if nxt.length == frontier.length then frontier
    else reachSet adj fuel nxt

/-- Mutual reachability of two nodes over an adjacency function with the
given fuel (reflexive by construction). -/
def mutuallyReachable (adj : String → List String) (fuel : Nat) (x y : String) : Bool :=
  (reachSet adj fuel [x]).contains y && (reachSet adj fuel [y]).contains x

/-- Modelled from the spec: tarjan.Connections (the tarjan package is not
under src/) computes the strongly connected components of the dependency
map (§4.4, "run a strongly-connected-components algorithm (Tarjan) over
it"); the component of a node is every node mutually reachable with it. -/
def sccOf (nodes : List String) (adj : String → List String) (x : String) :
    List String :=
  nodes.filter (mutuallyReachable adj nodes.length x)

/-- CircularDependencies (task.go): build the dependency map of the
version's tasks that have dependencies, compute its strongly connected
components, and report every component with more than one node as a
dependency cycle; the reported components are the offending node lists and
an empty report is a nil error. -/
def CircularDependencies (db : List Task) (t : Task) : List (List String) :=
  let tasksWithDeps := tasksFromVersionWithDependencies db t.Version
  let nodes := (tasksWithDeps.map (·.Id)).dedup
  let adj := depAdjacency tasksWithDeps
  ((nodes.map (sccOf nodes adj)).dedup).filter (fun cycle => cycle.length > 1)

/-! Helper lemmas about the store-update combinators. -/

theorem updateFirst_of_find?_eq_some {p : Task → Bool} {f : Task → Task} :
    ∀ {l : List Task} {u : Task}, l.find? p = some u →
      ∃ i, l[i]? = some u ∧ updateFirst p f l = l.set i (f u) := by
  intro l
  induction l with
  | nil => intro u h; simp at h
  | cons v rest ih =>
    intro u h
    by_cases hp : p v = true
    · rw [List.find?_cons_of_pos _ hp] at h
      obtain rfl : v = u := by injection h
      exact ⟨0, by simp, by simp [updateFirst, hp]⟩
    · rw [List.find?_cons_of_neg _ hp] at h
      obtain ⟨i, h1, h2⟩ := ih h
      exact ⟨i + 1, by simpa using h1, by simp [updateFirst, hp, h2]⟩

theorem mem_updateFirst {p : Task → Bool} {f : Task → Task} :
    ∀ {l : List Task} {x : Task}, x ∈ updateFirst p f l →
      x ∈ l ∨ ∃ y ∈ l, x = f y := by
  intro l
  induction l with
  | nil => intro x h; simp [updateFirst] at h
  | cons v rest ih =>
    intro x h
    by_cases hp : p v = true
    · simp only [updateFirst, hp, if_true] at h
      rcases List.mem_cons.mp h with h | h
      · exact Or.inr ⟨v, List.mem_cons_self v rest, h⟩
      · exact Or.inl (List.mem_cons_of_mem v h)
    · simp only [updateFirst, hp, if_false, Bool.false_eq_true] at h
      rcases List.mem_cons.mp h with h | h
      · exact Or.inl (h ▸ List.mem_cons_self v rest)
      · rcases ih h with h | ⟨y, hy, hxy⟩
        · exact Or.inl (List.mem_cons_of_mem v h)
        · exact Or.inr ⟨y, List.mem_cons_of_mem v hy, hxy⟩

theorem updateFirst_of_no_match {p : Task → Bool} {f : Task → Task} :
    ∀ {l : List Task}, (∀ x ∈ l, ¬p x = true) → updateFirst p f l = l := by
  intro l
  induction l with
  | nil => intro _; rfl
  | cons v rest ih =>
    intro h
    have hv : ¬p v = true := h v (List.mem_cons_self v rest)
    simp only [updateFirst, hv, if_false, Bool.false_eq_true]
    rw [ih fun x hx => h x (List.mem_cons_of_mem v hx)]

/-! C10 — MarkDependenciesFinished skips display tasks. -/

/-- C10: for every display-only task, MarkDependenciesFinished returns
without modifying any task record, for either flag value: the
multi-document dependency update is skipped entirely because tasks are not
allowed to depend on display tasks. -/
theorem markDependenciesFinished_displayOnly_frame (db : List Task) (t : Task)
    (b : Bool) (h : t.DisplayOnly = true) :
    MarkDependenciesFinished db t b = db := by
  simp [MarkDependenciesFinished, h]

def displayTaskRec : Task := { Id := "dt", DisplayOnly := true }

def dependentStore : List Task :=
  [{ Id := "x", DependsOn := [⟨"dt", "", false, false⟩] }]

/-- C10 witness: a concrete display task with a dependent in the store. -/
theorem markDependenciesFinished_displayOnly_frame_witness :
    MarkDependenciesFinished dependentStore displayTaskRec true = dependentStore ∧
    MarkDependenciesFinished dependentStore displayTaskRec false = dependentStore :=
  ⟨markDependenciesFinished_displayOnly_frame dependentStore displayTaskRec true rfl,
   markDependenciesFinished_displayOnly_frame dependentStore displayTaskRec false rfl⟩

/-! C3 — MarkEnd start-time backfill. -/

def markEndNoStartTask : Task :=
  { Id := "t3", Status := TaskStarted, StartTime := 0,
    IngestTime := 32400000000000 }

/-- C3 counterexample: a task with zero start time, ingest time 9h and
finish time 10h.  finish − 2h = 8h, so min(finish − 2h, ingest) = 8h, but
MarkEnd backfills the LATER of the two times, 9h: the code takes the max,
not the min. -/
theorem markEnd_backfill_min_counterexample :
    (MarkEnd markEndNoStartTask 36000000000000 default).StartTime = 32400000000000 ∧
    min (36000000000000 - twoHours) markEndNoStartTask.IngestTime = 28800000000000 ∧
    (32400000000000 : Int) ≠ 28800000000000 := by
  refine ⟨rfl, by decide, by decide⟩

/-- C3 amended: in MarkEnd, for every task whose start_time is zero at end
time, the start time is backfilled as max(finish_time − 2h, ingest_time)
before computing time_taken = finish_time − start_time. -/
theorem markEnd_backfill_max (t : Task) (finishTime : Int)
    (detail : TaskEndDetail) (h : IsZeroTime t.StartTime = true) :
    (MarkEnd t finishTime detail).StartTime =
      max (finishTime - twoHours) t.IngestTime ∧
    (MarkEnd t finishTime detail).TimeTaken =
      finishTime - max (finishTime - twoHours) t.IngestTime := by
  by_cases hlt : finishTime - twoHours < t.IngestTime
  · have hmax : max (finishTime - twoHours) t.IngestTime = t.IngestTime :=
      max_eq_right (le_of_lt hlt)
    constructor <;> simp [MarkEnd, h, hlt, hmax]
  · have hmax : max (finishTime - twoHours) t.IngestTime = finishTime - twoHours :=
      max_eq_left (le_of_not_lt hlt)
    constructor <;> simp [MarkEnd, h, hlt, hmax]

/-- C3 witness: the amended backfill evaluated on a concrete task with
ingest time 9h and finish time 10h. -/
theorem markEnd_backfill_max_witness :
    (MarkEnd markEndNoStartTask 36000000000000 default).StartTime =
      max (36000000000000 - twoHours) markEndNoStartTask.IngestTime ∧
    (MarkEnd markEndNoStartTask 36000000000000 default).TimeTaken =
      36000000000000 - max (36000000000000 - twoHours) markEndNoStartTask.IngestTime :=
  markEnd_backfill_max markEndNoStartTask 36000000000000 default rfl

/-! C7 — host dispatch followed by undispatch. -/

def preDispatchTask : Task :=
  { Id := "t7", Status := TaskUndispatched, DistroId := "d1", Activated := true }

/-- C7 counterexample: dispatching a task of distro d1 onto distro d2 (a
secondary distro) and undispatching it leaves distro_id = d2: the
undispatch update does not restore distro_id, so a non-time field differs
from the pre-dispatch record. -/
theorem hostUndispatch_distro_counterexample :
    (markAsHostUndispatchedWithFunc
        (markAsHostDispatchedWithFunc preDispatchTask "h1" "d2" "agent" 5)).DistroId
      = "d2" ∧
    preDispatchTask.DistroId = "d1" ∧ ("d2" : String) ≠ "d1" := by
  refine ⟨rfl, rfl, by decide⟩

/-- C7 amended: for a host task taken from the undispatched state with no
host, agent, abort state or end details recorded, dispatching it onto its
own distro and then undispatching restores the pre-dispatch record up to
the time fields (dispatch_time and last_heartbeat are zeroed); the
dispatch's distro_id is retained rather than restored, so the inverse law
needs the dispatch to reuse the task's distro. -/
theorem hostUndispatch_inverts_dispatch (t : Task)
    (hostID agentRevision : String) (dispatchTime : Int)
    (hstatus : t.Status = TaskUndispatched) (hhost : t.HostId = "")
    (hagent : t.AgentVersion = "") (haborted : t.Aborted = false)
    (habort : t.AbortInfo = default) (hdetails : t.Details = default) :
    markAsHostUndispatchedWithFunc
        (markAsHostDispatchedWithFunc t hostID t.DistroId agentRevision dispatchTime)
      = { t with DispatchTime := ZeroTime, LastHeartbeat := ZeroTime } := by
  cases t
  simp_all [markAsHostUndispatchedWithFunc, markAsHostDispatchedWithFunc]

/-- C7 witness: the round trip evaluated on a concrete clean undispatched
task. -/
theorem hostUndispatch_inverts_dispatch_witness :
    markAsHostUndispatchedWithFunc
        (markAsHostDispatchedWithFunc preDispatchTask "h1" preDispatchTask.DistroId
          "agent" 5)
      = { preDispatchTask with DispatchTime := ZeroTime, LastHeartbeat := ZeroTime } :=
  hostUndispatch_inverts_dispatch preDispatchTask "h1" "agent" 5
    rfl rfl rfl rfl rfl rfl

/-! C8 — SatisfiesDependency against the spec's table. -/

theorem any_eq_false_of_no_match {q : Dependency → Bool} {p : Dependency → Bool}
    {l : List Dependency} (h : ∀ d ∈ l, ¬q d = true)
    (himp : ∀ d, (p d = true) → q d = true) : l.any p = false := by
  rw [List.any_eq_false]
  intro d hd hp
  exact h d hd (himp d hp)

theorem satisfiesDependencyLoop_eq_any (u : Task) :
    ∀ deps : List Dependency,
      (deps.filter (fun d => d.TaskId == u.Id)).length ≤ 1 →
      satisfiesDependencyLoop deps u =
        deps.any (fun d => d.TaskId == u.Id && depStatusMet d.Status u) := by
  intro deps
  induction deps with
  | nil => intro _; rfl
  | cons dep rest ih =>
    intro h
    by_cases hid : (dep.TaskId == u.Id) = true
    · have hlen : (rest.filter (fun d => d.TaskId == u.Id)).length = 0 := by
        simp only [List.filter_cons, hid, if_true, List.length_cons] at h
        omega
      have hrest : ∀ d ∈ rest, ¬(d.TaskId == u.Id) = true := by
        rw [List.length_eq_zero, List.filter_eq_nil_iff] at hlen
        exact hlen
      have hany : rest.any (fun d => d.TaskId == u.Id && depStatusMet d.Status u)
          = false :=
        any_eq_false_of_no_match hrest
          (fun d hp => (Bool.and_eq_true _ _).mp hp |>.1)
      have hloopRest : satisfiesDependencyLoop rest u = false := by
        rw [ih (by omega), hany]
      simp only [satisfiesDependencyLoop, hid, if_true, List.any_cons, hany,
        Bool.or_false, Bool.true_and, depStatusMet]
      split_ifs <;> simp_all
    · have hfilter : ((dep :: rest).filter (fun d => d.TaskId == u.Id))
          = rest.filter (fun d => d.TaskId == u.Id) := by
        simp [List.filter_cons, hid]
      simp only [satisfiesDependencyLoop, hid, if_false, List.any_cons,
        Bool.false_eq_true, Bool.false_and, Bool.false_or]
      exact ih (hfilter ▸ h)

/-- C8 amended: SatisfiesDependency agrees with the spec's table — true iff
some depends_on edge names the upstream and its required status is met
(succeeded/unset iff the upstream succeeded; failed iff it failed; any iff
it succeeded, failed or is blocked; false with no matching edge) —
PROVIDED the task has at most one depends_on edge naming that upstream; in
general the first matching edge with a recognized required status decides. -/
theorem satisfiesDependency_matches_table (t u : Task)
    (h : (t.DependsOn.filter (fun d => d.TaskId == u.Id)).length ≤ 1) :
    t.SatisfiesDependency u = SatisfiesDependencySpec t u :=
  satisfiesDependencyLoop_eq_any u t.DependsOn h

def upstreamSucceededTask : Task := { Id := "A", Status := TaskSucceeded }

def duplicateEdgeTask : Task :=
  { Id := "t", DependsOn := [⟨"A", TaskFailed, false, false⟩,
                             ⟨"A", TaskSucceeded, false, false⟩] }

/-- C8 counterexample: a task with two depends_on edges naming upstream A,
required failed then required succeeded, against a succeeded A.  Some edge
(the second) has its requirement met, so the claim's reading answers true,
but SatisfiesDependency answers false: the first matching edge decides. -/
theorem satisfiesDependency_duplicate_edge_counterexample :
    duplicateEdgeTask.SatisfiesDependency upstreamSucceededTask = false ∧
    SatisfiesDependencySpec duplicateEdgeTask upstreamSucceededTask = true := by
  refine ⟨by decide, by decide⟩

def singleEdgeTask : Task :=
  { Id := "s", DependsOn := [⟨"A", TaskSucceeded, false, false⟩] }

/-- C8 witness: the agreement evaluated on a task with one matching edge. -/
theorem satisfiesDependency_matches_table_witness :
    singleEdgeTask.SatisfiesDependency upstreamSucceededTask =
      SatisfiesDependencySpec singleEdgeTask upstreamSucceededTask :=
  satisfiesDependency_matches_table singleEdgeTask upstreamSucceededTask (by decide)

/-! C2 — container allocation is bounded by maxContainerAllocationAttempts. -/

/-- C2: a task whose attempt counter has reached maxContainerAllocationAttempts
(5) never has ShouldAllocateContainer true; MarkAsContainerAllocated on an
already-allocated task or one out of attempts reports an error and leaves
both the store and the receiver unchanged; and a successful
MarkAsContainerAllocated rewrites exactly one previously-unallocated
document, incrementing its attempt counter by exactly 1 and setting
container_allocated, and marks the receiver allocated. -/
theorem containerAllocation_bounded (db : List Task) (t : Task) (allocatedAt : Int) :
    (t.ContainerAllocationAttempts = maxContainerAllocationAttempts →
      t.ShouldAllocateContainer = false)
    ∧ (t.ContainerAllocated = true ∨ t.RemainingContainerAllocationAttempts = 0 →
        (MarkAsContainerAllocated db t allocatedAt).1.isSome = true ∧
        (MarkAsContainerAllocated db t allocatedAt).2.1 = db ∧
        (MarkAsContainerAllocated db t allocatedAt).2.2 = t)
    ∧ ((MarkAsContainerAllocated db t allocatedAt).1 = none →
        (MarkAsContainerAllocated db t allocatedAt).2.2.ContainerAllocated = true ∧
        ∃ i u, db[i]? = some u ∧ u.ContainerAllocated = false ∧
          (MarkAsContainerAllocated db t allocatedAt).2.1 =
            db.set i (containerAllocatedUpdate allocatedAt u) ∧
          (containerAllocatedUpdate allocatedAt u).ContainerAllocationAttempts =
            u.ContainerAllocationAttempts + 1 ∧
          (containerAllocatedUpdate allocatedAt u).ContainerAllocated = true) := by
  refine ⟨?_, ?_, ?_⟩
  · intro h
    simp [Task.ShouldAllocateContainer, Task.RemainingContainerAllocationAttempts, h]
  · intro h
    by_cases halloc : t.ContainerAllocated = true
    · simp [MarkAsContainerAllocated, halloc]
    · rcases h with h | h
      · exact absurd h halloc
      · simp [MarkAsContainerAllocated, halloc, h]
  · intro h
    by_cases halloc : t.ContainerAllocated = true
    · simp [MarkAsContainerAllocated, halloc] at h
    · by_cases hrem : (t.RemainingContainerAllocationAttempts == 0) = true
      · simp [MarkAsContainerAllocated, halloc, hrem] at h
      · cases hfind : db.find? (fun u => u.Id == t.Id && needsContainerAllocation u &&
            decide (u.ContainerAllocationAttempts < maxContainerAllocationAttempts)) with
        | none =>
          simp [MarkAsContainerAllocated, halloc, hrem, hfind] at h
        | some u =>
          have hqu := List.find?_some hfind
          have hunalloc : u.ContainerAllocated = false := by
            simp only [Bool.and_eq_true] at hqu
            have hneeds : needsContainerAllocation u = true := hqu.1.2
            simp only [needsContainerAllocation, Bool.and_eq_true,
              Bool.not_eq_true'] at hneeds
            exact hneeds.2
          obtain ⟨i, hi, hset⟩ :=
            updateFirst_of_find?_eq_some (f := containerAllocatedUpdate allocatedAt)
              hfind
          refine ⟨?_, i, u, hi, hunalloc, ?_, rfl, rfl⟩
          · simp [MarkAsContainerAllocated, halloc, hrem, hfind]
          · simp [MarkAsContainerAllocated, halloc, hrem, hfind, hset]

def allocReadyTask : Task :=
  { Id := "k", Status := TaskUndispatched, Activated := true,
    ExecutionPlatform := ExecutionPlatformContainer, Priority := 0 }

def outOfAttemptsTask : Task :=
  { allocReadyTask with ContainerAllocationAttempts := 5 }

def alreadyAllocatedTask : Task :=
  { allocReadyTask with ContainerAllocated := true }

/-- C2 witness: the three conjuncts of the bound, each at a concrete task —
one at the attempt limit, one already allocated, and one successful
allocation against a one-document store. -/
theorem containerAllocation_bounded_witness :
    outOfAttemptsTask.ShouldAllocateContainer = false ∧
    ((MarkAsContainerAllocated [allocReadyTask] alreadyAllocatedTask 9).1.isSome = true ∧
     (MarkAsContainerAllocated [allocReadyTask] alreadyAllocatedTask 9).2.1
       = [allocReadyTask] ∧
     (MarkAsContainerAllocated [allocReadyTask] alreadyAllocatedTask 9).2.2
       = alreadyAllocatedTask) ∧
    ((MarkAsContainerAllocated [allocReadyTask] allocReadyTask 9).2.2.ContainerAllocated
       = true ∧
     ∃ i u, [allocReadyTask][i]? = some u ∧ u.ContainerAllocated = false ∧
       (MarkAsContainerAllocated [allocReadyTask] allocReadyTask 9).2.1 =
         [allocReadyTask].set i (containerAllocatedUpdate 9 u) ∧
       (containerAllocatedUpdate 9 u).ContainerAllocationAttempts =
         u.ContainerAllocationAttempts + 1 ∧
       (containerAllocatedUpdate 9 u).ContainerAllocated = true) :=
  ⟨(containerAllocation_bounded [] outOfAttemptsTask 0).1 rfl,
   (containerAllocation_bounded [allocReadyTask] alreadyAllocatedTask 9).2.1
     (Or.inl rfl),
   (containerAllocation_bounded [allocReadyTask] allocReadyTask 9).2.2 rfl⟩

/-! C5 — the reset guard. -/

theorem map_eq_self_of_eq {f : Task → Task} :
    ∀ {l : List Task}, (∀ x ∈ l, f x = x) → l.map f = l := by
  intro l
  induction l with
  | nil => intro _; rfl
  | cons v rest ih =>
    intro h
    rw [List.map_cons, h v (List.mem_cons_self v rest),
      ih fun x hx => h x (List.mem_cons_of_mem v hx)]

theorem id_inj_of_nodup {db : List Task} (hnd : (db.map Task.Id).Nodup) :
    ∀ a ∈ db, ∀ b ∈ db, a.Id = b.Id → a = b :=
  List.inj_on_of_nodup_map hnd

theorem updateFirst_kills_match {p : Task → Bool} {f : Task → Task} {tid : String}
    (hpid : ∀ x, p x = true → x.Id = tid) (hfix : ∀ x, ¬p (f x) = true) :
    ∀ {l : List Task}, (l.map Task.Id).Nodup →
      ∀ u ∈ updateFirst p f l, ¬p u = true := by
  intro l
  induction l with
  | nil => intro _ u hu; simp [updateFirst] at hu
  | cons v rest ih =>
    intro hnd u hu
    rw [List.map_cons, List.nodup_cons] at hnd
    by_cases hp : p v = true
    · simp only [updateFirst, hp, if_true] at hu
      rcases List.mem_cons.mp hu with rfl | hu
      · exact hfix v
      · intro hpu
        apply hnd.1
        have hsame : u.Id = v.Id := (hpid u hpu).trans (hpid v hp).symm
        exact hsame ▸ List.mem_map_of_mem Task.Id hu
    · simp only [updateFirst, hp, if_false, Bool.false_eq_true] at hu
      rcases List.mem_cons.mp hu with rfl | hu
      · exact hp
      · exact ih hnd.2 u hu

theorem resetMatches_id {tid : String} {x : Task} (h : resetMatches tid x = true) :
    x.Id = tid := by
  simp only [resetMatches, Bool.and_eq_true, beq_iff_eq] at h
  exact h.1.1

theorem resetTaskUpdate_no_rematch (now : Int) (s tid : String) (x : Task) :
    ¬resetMatches tid (resetTaskUpdate now s x) = true := by
  simp [resetMatches, resetTaskUpdate]

/-- C5 amended: Reset applies only when the stored document has a terminal
status and can_reset: when no document of the store has the task's id with
a terminal status and can_reset=true, Reset matches zero documents,
reports a not-found (precondition-violation) error and leaves the store
unchanged, while the bulk ResetTasks is an error-free no-op on that store;
and a retried Reset after one already applied again matches zero
documents — a not-found error for Reset, an error-free no-op for
ResetTasks — because the applied reset cleared can_reset. -/
theorem reset_guard (db : List Task) (t : Task) (now : Int) (s : String) :
    ((∀ u ∈ db, ¬resetMatches t.Id u = true) →
      (Reset db t now s).1.isSome = true ∧ (Reset db t now s).2 = db ∧
      ResetTasks db [t] now s = db)
    ∧ (∀ db2, (db.map Task.Id).Nodup → Reset db t now s = (none, db2) →
      (Reset db2 t now s).1.isSome = true ∧ (Reset db2 t now s).2 = db2 ∧
      ResetTasks db2 [t] now s = db2) := by
  have resetTasks_of_no_match : ∀ (l : List Task),
      (∀ u ∈ l, ¬resetMatches t.Id u = true) → ResetTasks l [t] now s = l := by
    intro l hl
    simp only [ResetTasks, List.isEmpty_cons, if_false, Bool.false_eq_true,
      List.map_cons, List.map_nil]
    refine map_eq_self_of_eq fun x hx => ?_
    have hx2 := hl x hx
    rw [if_neg]
    intro hg
    apply hx2
    simp only [Bool.and_eq_true, List.contains_cons, List.contains_nil,
      Bool.or_false, beq_iff_eq] at hg
    simp only [resetMatches, Bool.and_eq_true, beq_iff_eq]
    exact ⟨⟨hg.1.1, hg.1.2⟩, hg.2⟩
  constructor
  · intro h
    have hfind : db.find? (resetMatches t.Id) = none :=
      List.find?_eq_none.mpr h
    refine ⟨?_, ?_, resetTasks_of_no_match db h⟩
    · simp [Reset, updateOneResult, hfind]
    · simp [Reset, updateOneResult, hfind]
  · intro db2 hnd h
    cases hfind : db.find? (resetMatches t.Id) with
    | none =>
      simp only [Reset, updateOneResult, hfind] at h
      exact absurd (congrArg Prod.fst h) (by simp)
    | some u0 =>
      have hdb2 : db2 = updateFirst (resetMatches t.Id) (resetTaskUpdate now s) db := by
        simp only [Reset, updateOneResult, hfind] at h
        exact (congrArg (fun x => x.2) h).symm
      have hnone : ∀ u ∈ db2, ¬resetMatches t.Id u = true := by
        rw [hdb2]
        exact updateFirst_kills_match (fun _ hx => resetMatches_id hx)
          (resetTaskUpdate_no_rematch now s t.Id) hnd
      have hfind2 : db2.find? (resetMatches t.Id) = none :=
        List.find?_eq_none.mpr hnone
      refine ⟨?_, ?_, resetTasks_of_no_match db2 hnone⟩
      · simp [Reset, updateOneResult, hfind2]
      · simp [Reset, updateOneResult, hfind2]

def runningResetTask : Task :=
  { Id := "r", Status := TaskStarted, CanReset := true }

/-- C5 counterexample: Reset of a started (non-terminal) task matches zero
documents and returns a NOT-FOUND ERROR, where the claim says it returns
without error (the in-src callers of the one-document update treat the
zero-match as adb.ResultsNotFound). -/
theorem reset_nonterminal_errors_counterexample :
    (Reset [runningResetTask] runningResetTask 0 "s").1.isSome = true ∧
    (Reset [runningResetTask] runningResetTask 0 "s").2 = [runningResetTask] := by
  refine ⟨by decide, by decide⟩

def doneResetTask : Task :=
  { Id := "r", Status := TaskSucceeded, CanReset := true }

/-- C5 witness: the guard on a started task (zero match, store unchanged,
bulk no-op) and the idempotent retry after a successful reset of a
succeeded task. -/
theorem reset_guard_witness :
    ((Reset [runningResetTask] runningResetTask 0 "s").1.isSome = true ∧
     (Reset [runningResetTask] runningResetTask 0 "s").2 = [runningResetTask] ∧
     ResetTasks [runningResetTask] [runningResetTask] 0 "s" = [runningResetTask]) ∧
    ((Reset (Reset [doneResetTask] doneResetTask 7 "s").2 doneResetTask 7 "s").1.isSome
       = true ∧
     (Reset (Reset [doneResetTask] doneResetTask 7 "s").2 doneResetTask 7 "s").2
       = (Reset [doneResetTask] doneResetTask 7 "s").2 ∧
     ResetTasks (Reset [doneResetTask] doneResetTask 7 "s").2 [doneResetTask] 7 "s"
       = (Reset [doneResetTask] doneResetTask 7 "s").2) :=
  ⟨(reset_guard [runningResetTask] runningResetTask 0 "s").1 (by decide),
   (reset_guard [doneResetTask] doneResetTask 7 "s").2
     (Reset [doneResetTask] doneResetTask 7 "s").2 (by decide) (by decide)⟩

/-! C4 — the cached unattainable_dependency stays the OR of the edges. -/

theorem ad_eq_none_of {db : List Task} {seeds : List String} {caller : String}
    {now : Int}
    (htopo : topologicalSort (getRecursiveDependenciesDown db (db.length + 1)
      seeds []) = none) :
    ActivateDeactivatedDependencies db seeds caller now = none := by
  unfold ActivateDeactivatedDependencies
  dsimp only
  rw [htopo]

theorem ad_eq_of_some {db : List Task} {seeds : List String} {caller : String}
    {now : Int} {sorted : List Task}
    (htopo : topologicalSort (getRecursiveDependenciesDown db (db.length + 1)
      seeds []) = some sorted) :
    ActivateDeactivatedDependencies db seeds caller now =
      (if (adSelect seeds (adMissingActivated db (adGatherTasksToGet seeds sorted))
            sorted).isEmpty then some db
       else some (db.map fun u =>
         if (adSelect seeds (adMissingActivated db (adGatherTasksToGet seeds sorted))
              sorted).any (fun s => s.Id == u.Id) then
           activatedDependencyUpdate caller now u
         else u)) := by
  unfold ActivateDeactivatedDependencies
  dsimp only
  rw [htopo]

/-- C4: after each operation that rewrites activation or dependency state
(Reset, ResetTasks, ActivateDeactivatedDependencies), every task of the
store has unattainable_dependency equal to the disjunction of the
unattainable flags of its depends_on edges (false when depends_on is
empty): the rewritten documents recompute the cache from the in-document
array, and the untouched documents keep it, so the invariant is
maintained. -/
theorem unattainableCache_maintained (db tasks : List Task) (t : Task)
    (seeds : List String) (caller newSecret : String) (now : Int)
    (hpre : ∀ u ∈ db, u.UnattainableDependency = u.DependsOn.any (·.Unattainable)) :
    (∀ u ∈ ResetTasks db tasks now newSecret,
       u.UnattainableDependency = u.DependsOn.any (·.Unattainable))
    ∧ (∀ u ∈ (Reset db t now newSecret).2,
       u.UnattainableDependency = u.DependsOn.any (·.Unattainable))
    ∧ (∀ db2, ActivateDeactivatedDependencies db seeds caller now = some db2 →
       ∀ u ∈ db2, u.UnattainableDependency = u.DependsOn.any (·.Unattainable)) := by
  refine ⟨?_, ?_, ?_⟩
  · intro u hu
    simp only [ResetTasks] at hu
    by_cases hemp : tasks.isEmpty = true
    · rw [if_pos hemp] at hu
      exact hpre u hu
    · rw [if_neg (by simp [hemp])] at hu
      obtain ⟨y, hy, hyu⟩ := List.mem_map.mp hu
      by_cases hc : ((tasks.map (·.Id)).contains y.Id
          && TaskCompletedStatuses.contains y.Status && y.CanReset) = true
      · rw [if_pos hc] at hyu
        rw [← hyu]
        rfl
      · rw [if_neg hc] at hyu
        exact hyu ▸ hpre y hy
  · intro u hu
    simp only [Reset, updateOneResult] at hu
    cases hfind : db.find? (resetMatches t.Id) with
    | none => rw [hfind] at hu; exact hpre u hu
    | some u0 =>
      rw [hfind] at hu
      rcases mem_updateFirst hu with hu | ⟨y, _, rfl⟩
      · exact hpre u hu
      · rfl
  · intro db2 h u hu
    cases htopo : topologicalSort
        (getRecursiveDependenciesDown db (db.length + 1) seeds []) with
    | none => rw [ad_eq_none_of htopo] at h; simp at h
    | some sorted =>
      rw [ad_eq_of_some htopo] at h
      by_cases hemp : (adSelect seeds
          (adMissingActivated db (adGatherTasksToGet seeds sorted)) sorted).isEmpty = true
      · rw [if_pos hemp] at h
        obtain rfl : db = db2 := by injection h
        exact hpre u hu
      · rw [if_neg hemp] at h
        obtain rfl : (db.map fun v =>
            if (adSelect seeds (adMissingActivated db (adGatherTasksToGet seeds sorted))
                sorted).any (fun s => s.Id == v.Id) then
              activatedDependencyUpdate caller now v
            else v) = db2 := by injection h
        obtain ⟨y, hy, hyu⟩ := List.mem_map.mp hu
        by_cases hsel : ((adSelect seeds
            (adMissingActivated db (adGatherTasksToGet seeds sorted)) sorted).any
            (fun s => s.Id == y.Id)) = true
        · rw [if_pos hsel] at hyu
          rw [← hyu]
          rfl
        · rw [if_neg hsel] at hyu
          exact hyu ▸ hpre y hy

def cachedInvTask : Task :=
  { Id := "q", Status := TaskSucceeded, CanReset := true,
    DependsOn := [⟨"p", "", true, true⟩], UnattainableDependency := true }

/-- C4 witness: the invariant evaluated after the three operations on a
one-document store whose task has an unattainable dependency edge. -/
theorem unattainableCache_maintained_witness :
    (∀ u ∈ ResetTasks [cachedInvTask] [cachedInvTask] 3 "s",
       u.UnattainableDependency = u.DependsOn.any (·.Unattainable)) ∧
    (∀ u ∈ (Reset [cachedInvTask] cachedInvTask 3 "s").2,
       u.UnattainableDependency = u.DependsOn.any (·.Unattainable)) ∧
    (∀ db2, ActivateDeactivatedDependencies [cachedInvTask] ["p"] "c" 3 = some db2 →
       ∀ u ∈ db2, u.UnattainableDependency = u.DependsOn.any (·.Unattainable)) :=
  unattainableCache_maintained [cachedInvTask] [cachedInvTask] cachedInvTask
    ["p"] "c" "s" 3 (by decide)

/-! C6 — Archive: no-op off terminal statuses, idempotent, faithful copy. -/

theorem archiveMatches_id {tid : String} {x : Task}
    (h : archiveMatches tid x = true) : x.Id = tid := by
  simp only [archiveMatches, Bool.and_eq_true, beq_iff_eq] at h
  exact h.1.1

theorem archiveUpdate_no_rematch (tid : String) (x : Task) :
    ¬archiveMatches tid (updateDisplayTasksAndTasks x) = true := by
  simp [archiveMatches, updateDisplayTasksAndTasks]

/-- C6 amended: Archive returns both stores unchanged for every task whose
status is not terminal; the archived copy rewrites exactly the id (live
id + "_" + execution), old_task_id and archived flag, keeping every other
field; and on a terminal task that is NOT a display task with execution
tasks, whose archived id is not yet in old_tasks, archiving leaves
exactly one old_tasks record with that id and a second Archive of the
same execution changes nothing (the duplicate insert is skipped and the
live-record update matches zero documents since can_reset was set).  A
display task with execution tasks goes through ArchiveMany instead, where
a second Archive is not idempotent (see the counterexample below). -/
theorem archive_single_idempotent (db oldDb : List Task) (t : Task)
    (hterm : TaskCompletedStatuses.contains t.Status = true)
    (hnotdisp : (t.DisplayOnly && !t.ExecutionTasks.isEmpty) = false)
    (hnd : (db.map Task.Id).Nodup)
    (hfresh : ∀ u ∈ oldDb, ¬(u.Id == MakeOldID t.Id t.Execution) = true) :
    (∀ (d o : List Task) (u : Task), TaskCompletedStatuses.contains u.Status = false →
      Archive d o u = (d, o))
    ∧ (∀ u : Task, makeArchivedTask u =
        { u with Id := u.Id ++ "_" ++ toString u.Execution,
                 OldTaskId := u.Id, Archived := true })
    ∧ ((Archive db oldDb t).2.filter
        (fun u => u.Id == MakeOldID t.Id t.Execution)).length = 1
    ∧ Archive (Archive db oldDb t).1 (Archive db oldDb t).2 t = Archive db oldDb t := by
  have hins : insertOld oldDb (makeArchivedTask t) = oldDb ++ [makeArchivedTask t] := by
    have hany : oldDb.any (fun u => u.Id == (makeArchivedTask t).Id) = false := by
      rw [List.any_eq_false]
      intro u hu
      simpa [makeArchivedTask] using hfresh u hu
    simp [insertOld, hany]
  have hterm2 : t.Status ∈ TaskCompletedStatuses := by simpa using hterm
  have hnotdisp2 : ¬(t.DisplayOnly = true ∧ ¬t.ExecutionTasks = []) := by
    simpa using hnotdisp
  have harch : Archive db oldDb t =
      (updateFirst (archiveMatches t.Id) updateDisplayTasksAndTasks db,
       oldDb ++ [makeArchivedTask t]) := by
    simp [Archive, hterm2, hnotdisp2, hins]
  refine ⟨?_, ?_, ?_, ?_⟩
  · intro d o u h
    have h2 : u.Status ∉ TaskCompletedStatuses := by simpa using h
    simp [Archive, h2]
  · intro u
    rfl
  · rw [harch]
    have h1 : oldDb.filter (fun u => u.Id == MakeOldID t.Id t.Execution) = [] :=
      List.filter_eq_nil_iff.mpr hfresh
    simp [List.filter_append, h1, makeArchivedTask]
  · have hkill : ∀ u ∈ updateFirst (archiveMatches t.Id) updateDisplayTasksAndTasks db,
        ¬archiveMatches t.Id u = true :=
      updateFirst_kills_match (fun _ hx => archiveMatches_id hx)
        (archiveUpdate_no_rematch t.Id) hnd
    have hdb2 : updateFirst (archiveMatches t.Id) updateDisplayTasksAndTasks
        (updateFirst (archiveMatches t.Id) updateDisplayTasksAndTasks db) =
        updateFirst (archiveMatches t.Id) updateDisplayTasksAndTasks db :=
      updateFirst_of_no_match hkill
    have hins2 : insertOld (oldDb ++ [makeArchivedTask t]) (makeArchivedTask t) =
        oldDb ++ [makeArchivedTask t] := by
      simp [insertOld]
    rw [harch]
    simp [Archive, hterm2, hnotdisp2, hins2, hdb2]

def archiveDoneTask : Task :=
  { Id := "a", Status := TaskSucceeded, Execution := 2 }

/-- C6 witness: the no-op on a started task, the copy shape, the single
old_tasks record and the idempotent re-archive, all on a one-document
store holding a succeeded task. -/
theorem archive_single_idempotent_witness :
    Archive [runningResetTask] [] runningResetTask
      = ([runningResetTask], []) ∧
    makeArchivedTask archiveDoneTask =
      { archiveDoneTask with
          Id := archiveDoneTask.Id ++ "_" ++ toString archiveDoneTask.Execution,
          OldTaskId := archiveDoneTask.Id, Archived := true } ∧
    ((Archive [archiveDoneTask] [] archiveDoneTask).2.filter
      (fun u => u.Id == MakeOldID archiveDoneTask.Id archiveDoneTask.Execution)).length
      = 1 ∧
    Archive (Archive [archiveDoneTask] [] archiveDoneTask).1
        (Archive [archiveDoneTask] [] archiveDoneTask).2 archiveDoneTask
      = Archive [archiveDoneTask] [] archiveDoneTask :=
  have h := archive_single_idempotent [archiveDoneTask] [] archiveDoneTask
    (by decide) (by decide) (by decide) (by decide)
  ⟨h.1 [runningResetTask] [] runningResetTask (by decide),
   h.2.1 archiveDoneTask, h.2.2.1, h.2.2.2⟩

def displayArchTask : Task :=
  { Id := "D", Status := TaskSucceeded, DisplayOnly := true,
    ExecutionTasks := ["e"] }

def execArchTask : Task := { Id := "e", Status := TaskSucceeded }

/-- C6 counterexample: a succeeded display task D with one succeeded
execution task e.  Archive delegates to ArchiveMany; the first archive
inserts D_0 and e_0 into old_tasks and progresses e to execution 1; a
second Archive of the same task re-queries the still-completed execution
task at its already-bumped execution, inserts a NEW old_tasks record e_1
and re-increments latest_parent_execution to 2.  old_tasks grows from two
records to three and the live store changes again, so archiving twice is
not idempotent and does not leave exactly one record per archived task. -/
theorem archive_display_not_idempotent_counterexample :
    (Archive [displayArchTask, execArchTask] [] displayArchTask).2.map (·.Id)
      = ["D_0", "e_0"] ∧
    (Archive (Archive [displayArchTask, execArchTask] [] displayArchTask).1
        (Archive [displayArchTask, execArchTask] [] displayArchTask).2
        displayArchTask).2.map (·.Id)
      = ["D_0", "e_0", "e_1"] ∧
    (Archive [displayArchTask, execArchTask] [] displayArchTask).1.map
        (·.LatestParentExecution) = [0, 1] ∧
    (Archive (Archive [displayArchTask, execArchTask] [] displayArchTask).1
        (Archive [displayArchTask, execArchTask] [] displayArchTask).2
        displayArchTask).1.map (·.LatestParentExecution) = [0, 2] := by
  refine ⟨rfl, rfl, rfl, rfl⟩

/-! C9 — CircularDependencies and the one-node self-loop. -/

theorem mem_reachSet_of_mem (adj : String → List String) :
    ∀ (fuel : Nat) (frontier : List String) {x : String},
      x ∈ frontier → x ∈ reachSet adj fuel frontier := by
  intro fuel
  induction fuel with
  | zero => intro frontier x hx; exact hx
  | succ fuel ih =>
    intro frontier x hx
    simp only [reachSet]
    by_cases hlen : ((reachStep adj frontier).length == frontier.length) = true
    · rw [if_pos hlen]; exact hx
    · rw [if_neg hlen]
      exact ih _ (List.mem_append_left _ hx)

theorem mutuallyReachable_self {adj : String → List String} {fuel : Nat}
    {x : String} : mutuallyReachable adj fuel x x = true := by
  have hx : x ∈ reachSet adj fuel [x] :=
    mem_reachSet_of_mem adj fuel [x] (List.mem_singleton_self x)
  simp [mutuallyReachable, hx]

theorem mem_sccOf {nodes : List String} {adj : String → List String}
    {x y : String} :
    y ∈ sccOf nodes adj x ↔
      y ∈ nodes ∧ mutuallyReachable adj nodes.length x y = true := by
  simp [sccOf, List.mem_filter]

theorem one_lt_length_of_two_mem {α : Type} {l : List α} {a b : α}
    (ha : a ∈ l) (hb : b ∈ l) (hab : a ≠ b) : 1 < l.length := by
  match l with
  | [] => exact absurd ha (List.not_mem_nil a)
  | [z] =>
    rw [List.mem_singleton] at ha hb
    exact absurd (ha.trans hb.symm) hab
  | z :: w :: rest =>
    simp only [List.length_cons]
    omega

/-- C9 amended: CircularDependencies reports an error exactly when two
DISTINCT tasks of the version are mutually reachable through depends_on
edges (a strongly connected component with more than one node), naming
the offending components; a cycle through at least two tasks is always
reported, but a 1-node self-loop is a singleton component, which the
|component| > 1 check filters out, so it returns no error. -/
theorem circularDependencies_cycles_iff (db : List Task) (t : Task) :
    CircularDependencies db t ≠ [] ↔
      ∃ x y,
        x ∈ ((tasksFromVersionWithDependencies db t.Version).map (·.Id)).dedup ∧
        y ∈ ((tasksFromVersionWithDependencies db t.Version).map (·.Id)).dedup ∧
        x ≠ y ∧
        mutuallyReachable
          (depAdjacency (tasksFromVersionWithDependencies db t.Version))
          ((tasksFromVersionWithDependencies db t.Version).map (·.Id)).dedup.length
          x y = true := by
  set tasksWithDeps := tasksFromVersionWithDependencies db t.Version with htwd
  set nodes := (tasksWithDeps.map (·.Id)).dedup with hnodes
  set adj := depAdjacency tasksWithDeps with hadj
  have hnd : nodes.Nodup := List.nodup_dedup _
  constructor
  · intro h
    obtain ⟨c, hc, hclen⟩ : ∃ c ∈ (nodes.map (sccOf nodes adj)).dedup,
        decide (c.length > 1) = true := by
      by_contra hcon
      push_neg at hcon
      exact h (List.filter_eq_nil_iff.mpr fun a ha => by simpa using hcon a ha)
    obtain ⟨v, hv, rfl⟩ := List.mem_map.mp (List.mem_dedup.mp hc)
    have hsnd : (sccOf nodes adj v).Nodup := List.Nodup.filter _ hnd
    have hlen : 1 < (sccOf nodes adj v).length := by simpa using hclen
    obtain ⟨a, b, hab, hmem⟩ : ∃ a b, a ≠ b ∧
        a ∈ sccOf nodes adj v ∧ b ∈ sccOf nodes adj v := by
      match hscc : sccOf nodes adj v, hlen with
      | a :: b :: rest, _ =>
        refine ⟨a, b, ?_, by simp, by simp⟩
        have := hscc ▸ hsnd
        rw [List.nodup_cons] at this
        intro hab
        exact this.1 (hab ▸ List.mem_cons_self b rest)
    rcases Classical.em (a = v) with rfl | hav
    · have hb := mem_sccOf.mp hmem.2
      exact ⟨a, b, List.mem_filter.mp hmem.1 |>.1, hb.1, hab, hb.2⟩
    · have ha := mem_sccOf.mp hmem.1
      exact ⟨v, a, hv, ha.1, fun hva => hav hva.symm, ha.2⟩
  · rintro ⟨x, y, hx, hy, hxy, hmr⟩
    intro hnil
    have hxin : x ∈ sccOf nodes adj x :=
      mem_sccOf.mpr ⟨hx, mutuallyReachable_self⟩
    have hyin : y ∈ sccOf nodes adj x := mem_sccOf.mpr ⟨hy, hmr⟩
    have hlen : 1 < (sccOf nodes adj x).length :=
      one_lt_length_of_two_mem hxin hyin (fun h => hxy h)
    have hcin : sccOf nodes adj x ∈ (nodes.map (sccOf nodes adj)).dedup :=
      List.mem_dedup.mpr (List.mem_map_of_mem _ hx)
    have := List.filter_eq_nil_iff.mp hnil _ hcin
    simp [hlen] at this

def selfLoopTask : Task :=
  { Id := "A", Version := "v", DependsOn := [⟨"A", "", false, false⟩] }

/-- C9 counterexample: a version holding a single task that depends on
itself.  The dependency cycle (a 1-node self-loop) exists, yet
CircularDependencies reports no cycle and returns a nil error: a
singleton strongly connected component never passes the |V| > 1 check. -/
theorem circularDependencies_selfLoop_counterexample :
    selfLoopTask.DependsOn.any (fun d => d.TaskId == selfLoopTask.Id) = true ∧
    CircularDependencies [selfLoopTask] selfLoopTask = [] := by
  refine ⟨by decide, by decide⟩

/-! C1 — soundness of the dependency activation cascade. -/

theorem getRecDepsDown_subset (db : List Task) :
    ∀ (fuel : Nat) (tasks taskMap : List String),
      ∀ x ∈ getRecursiveDependenciesDown db fuel tasks taskMap, x ∈ db := by
  intro fuel
  induction fuel with
  | zero => intro tasks taskMap x hx; simp [getRecursiveDependenciesDown] at hx
  | succ fuel ih =>
    intro tasks taskMap x hx
    simp only [getRecursiveDependenciesDown] at hx
    by_cases hemp : ((db.filter (fun u => u.DependsOn.any
        (fun d => tasks.contains d.TaskId))).filter
        (fun u => !(taskMap ++ tasks).contains u.Id)).isEmpty = true
    · rw [if_pos hemp] at hx
      exact absurd hx (List.not_mem_nil x)
    · rw [if_neg hemp] at hx
      rcases List.mem_append.mp hx with hx | hx
      · exact (List.mem_filter.mp (List.mem_filter.mp hx).1).1
      · exact ih _ _ x hx

theorem topoKahn_subset :
    ∀ (fuel : Nat) (remaining s : List Task), topoKahn fuel remaining = some s →
      ∀ x ∈ s, x ∈ remaining := by
  intro fuel
  induction fuel with
  | zero =>
    intro remaining s h x hx
    by_cases hemp : remaining.isEmpty = true
    · simp only [topoKahn, hemp, if_true] at h
      obtain rfl : ([] : List Task) = s := by injection h
      exact absurd hx (List.not_mem_nil x)
    · simp [topoKahn, hemp] at h
  | succ fuel ih =>
    intro remaining s h x hx
    by_cases hemp : remaining.isEmpty = true
    · simp only [topoKahn, hemp, if_true] at h
      obtain rfl : ([] : List Task) = s := by injection h
      exact absurd hx (List.not_mem_nil x)
    · simp only [topoKahn, hemp, if_false, Bool.false_eq_true] at h
      by_cases hready : (remaining.filter (topoReady remaining)).isEmpty = true
      · simp [hready] at h
      · rw [if_neg hready] at h
        cases hrec : topoKahn fuel (remaining.filter fun u => !topoReady remaining u) with
        | none => rw [hrec] at h; simp at h
        | some rest =>
          rw [hrec] at h
          obtain rfl : remaining.filter (topoReady remaining) ++ rest = s := by
            injection h
          rcases List.mem_append.mp hx with hx | hx
          · exact (List.mem_filter.mp hx).1
          · exact (List.mem_filter.mp (ih _ rest hrec x hx)).1

theorem topologicalSort_subset {tasks s : List Task}
    (h : topologicalSort tasks = some s) : ∀ x ∈ s, x ∈ tasks := by
  unfold topologicalSort at h
  by_cases hself : topoHasSelfEdge tasks = true
  · rw [if_pos hself] at h
    obtain rfl : ([] : List Task) = s := by injection h
    exact fun x hx => absurd hx (List.not_mem_nil x)
  · rw [if_neg hself] at h
    exact topoKahn_subset tasks.length tasks s h

theorem mem_adActivationStep {tm : List String} {ma : String → Bool}
    {acc : List Task} {u x : Task} (h : x ∈ adActivationStep tm ma acc u) :
    x ∈ acc ∨ (x = u ∧ (u.Activated || !u.DeactivatedForDependency) = false ∧
      u.DependsOn.all (fun d => acc.any (fun s => s.Id == d.TaskId)
        || tm.contains d.TaskId || ma d.TaskId) = true) := by
  unfold adActivationStep at h
  by_cases hc1 : (u.Activated || !u.DeactivatedForDependency) = true
  · rw [if_pos hc1] at h
    exact Or.inl h
  · rw [if_neg hc1] at h
    by_cases hc2 : u.DependsOn.all (fun d => acc.any (fun s => s.Id == d.TaskId)
        || tm.contains d.TaskId || ma d.TaskId) = true
    · rw [if_pos hc2] at h
      rcases List.mem_append.mp h with h | h
      · exact Or.inl h
      · exact Or.inr ⟨List.mem_singleton.mp h, by simpa using hc1, hc2⟩
    · rw [if_neg hc2] at h
      exact Or.inl h

theorem adActivationStep_sup {tm : List String} {ma : String → Bool}
    {acc : List Task} {u x : Task} (h : x ∈ acc) :
    x ∈ adActivationStep tm ma acc u := by
  unfold adActivationStep
  split_ifs with h1 h2
  · exact h
  · exact List.mem_append_left _ h
  · exact h

theorem adFoldl_sup {tm : List String} {ma : String → Bool} :
    ∀ (l : List Task) (acc : List Task) (x : Task), x ∈ acc →
      x ∈ l.foldl (adActivationStep tm ma) acc := by
  intro l
  induction l with
  | nil => intro acc x hx; exact hx
  | cons u l ih =>
    intro acc x hx
    exact ih (adActivationStep tm ma acc u) x (adActivationStep_sup hx)

theorem adFoldl_mem {tm : List String} {ma : String → Bool} :
    ∀ (l : List Task) (acc : List Task) (x : Task),
      x ∈ l.foldl (adActivationStep tm ma) acc →
      x ∈ acc ∨ (x ∈ l ∧ x.Activated = false ∧ x.DeactivatedForDependency = true ∧
        ∀ d ∈ x.DependsOn,
          (l.foldl (adActivationStep tm ma) acc).any (fun s => s.Id == d.TaskId) = true
          ∨ tm.contains d.TaskId = true ∨ ma d.TaskId = true) := by
  intro l
  induction l with
  | nil => intro acc x hx; exact Or.inl hx
  | cons u l ih =>
    intro acc x hx
    rcases ih (adActivationStep tm ma acc u) x hx with hmem | ⟨hxl, hact, hdea, hok⟩
    · rcases mem_adActivationStep hmem with hmem | ⟨rfl, hc1, hc2⟩
      · exact Or.inl hmem
      · refine Or.inr ⟨List.mem_cons_self x l, ?_, ?_, ?_⟩
        · simpa using (Bool.or_eq_false_iff.mp hc1).1
        · have := (Bool.or_eq_false_iff.mp hc1).2
          simpa using this
        · intro d hd
          have hall := (List.all_eq_true.mp hc2) d hd
          rcases (Bool.or_eq_true _ _).mp hall with hh | hh
          · rcases (Bool.or_eq_true _ _).mp hh with hh | hh
            · left
              obtain ⟨s, hs, hsid⟩ := List.any_eq_true.mp hh
              exact List.any_eq_true.mpr
                ⟨s, adFoldl_sup l _ s (adActivationStep_sup hs), hsid⟩
            · right; left; exact hh
          · right; right; exact hh
    · exact Or.inr ⟨List.mem_cons_of_mem u hxl, hact, hdea, hok⟩

theorem adSelect_mem {seeds : List String} {ma : String → Bool}
    {sorted : List Task} {x : Task} (h : x ∈ adSelect seeds ma sorted) :
    x ∈ sorted ∧ x.Activated = false ∧ x.DeactivatedForDependency = true ∧
      ∀ d ∈ x.DependsOn,
        (adSelect seeds ma sorted).any (fun s => s.Id == d.TaskId) = true
        ∨ seeds.contains d.TaskId = true ∨ ma d.TaskId = true := by
  rcases adFoldl_mem sorted [] x h with hx | hx
  · exact absurd hx (List.not_mem_nil x)
  · exact hx

theorem adMissingActivated_sound {db : List Task} {g : List String} {x : String}
    (h : adMissingActivated db g x = true) :
    ∃ u ∈ db, u.Id = x ∧ u.Activated = true := by
  unfold adMissingActivated at h
  cases hfind : (db.filter (fun u => g.contains u.Id)).find? (fun u => u.Id == x) with
  | none => rw [hfind] at h; simp at h
  | some u =>
    rw [hfind] at h
    have hm := List.mem_of_find?_eq_some hfind
    have hid := List.find?_some hfind
    exact ⟨u, (List.mem_filter.mp hm).1, by simpa using hid, h⟩

/-- C1: after ActivateDeactivatedDependencies(S, caller) completes, every
task of the store that had activated=false and
deactivated_for_dependency=true and is activated by the pass has every one
of its depends_on dependencies in the seed set S or activated in the
result store (activated by the same pass or already active, which the
processing in topological order makes visible to later dependents); and a
candidate with some dependency neither in S nor activated in the result is
left completely unchanged. -/
theorem activateDeactivatedDependencies_sound (db : List Task)
    (seeds : List String) (caller : String) (now : Int) (db2 : List Task)
    (hnd : (db.map Task.Id).Nodup)
    (h : ActivateDeactivatedDependencies db seeds caller now = some db2) :
    (∀ (i : Nat) (t u : Task), db[i]? = some t → db2[i]? = some u →
       t.Activated = false → t.DeactivatedForDependency = true →
       u.Activated = true →
       ∀ d ∈ t.DependsOn, seeds.contains d.TaskId = true ∨
         ∃ w ∈ db2, w.Id = d.TaskId ∧ w.Activated = true)
    ∧ (∀ (i : Nat) (t u : Task), db[i]? = some t → db2[i]? = some u →
       t.Activated = false → t.DeactivatedForDependency = true →
       (∃ d ∈ t.DependsOn, seeds.contains d.TaskId = false ∧
         ∀ w ∈ db2, w.Id = d.TaskId → w.Activated = false) →
       u = t) := by
  cases htopo : topologicalSort
      (getRecursiveDependenciesDown db (db.length + 1) seeds []) with
  | none =>
    rw [ad_eq_none_of htopo] at h
    exact absurd h (by simp)
  | some sorted =>
    rw [ad_eq_of_some htopo] at h
    have hsorted_db : ∀ x ∈ sorted, x ∈ db := fun x hx =>
      getRecDepsDown_subset db _ _ _ x (topologicalSort_subset htopo x hx)
    by_cases hemp : (adSelect seeds
        (adMissingActivated db (adGatherTasksToGet seeds sorted)) sorted).isEmpty = true
    · rw [if_pos hemp] at h
      obtain rfl : db = db2 := by injection h
      constructor
      · intro i t u hti hui hact _ huact
        rw [hti] at hui
        obtain rfl : t = u := by injection hui
        exact absurd huact (by simp [hact])
      · intro i t u hti hui _ _ _
        rw [hti] at hui
        exact (Option.some.inj hui).symm
    · rw [if_neg hemp] at h
      have hdb2 : db2 = db.map (fun v =>
          if (adSelect seeds (adMissingActivated db (adGatherTasksToGet seeds sorted))
              sorted).any (fun s => s.Id == v.Id) then
            activatedDependencyUpdate caller now v
          else v) := (Option.some.inj h).symm
      have hinj := id_inj_of_nodup hnd
      have hactivated_in_db2 : ∀ y ∈ db,
          (adSelect seeds (adMissingActivated db (adGatherTasksToGet seeds sorted))
            sorted).any (fun s => s.Id == y.Id) = true →
          ∃ w ∈ db2, w.Id = y.Id ∧ w.Activated = true := by
        intro y hy hsely
        refine ⟨activatedDependencyUpdate caller now y, ?_, rfl, rfl⟩
        rw [hdb2]
        have heq : (fun v =>
            if (adSelect seeds (adMissingActivated db (adGatherTasksToGet seeds sorted))
                sorted).any (fun s => s.Id == v.Id) then
              activatedDependencyUpdate caller now v
            else v) y = activatedDependencyUpdate caller now y := by
          simp only [hsely, if_true]
        exact heq ▸ List.mem_map_of_mem _ hy
      have halready_in_db2 : ∀ y ∈ db, y.Activated = true →
          ∃ w ∈ db2, w.Id = y.Id ∧ w.Activated = true := by
        intro y hy hyact
        by_cases hsely : (adSelect seeds
            (adMissingActivated db (adGatherTasksToGet seeds sorted)) sorted).any
            (fun s => s.Id == y.Id) = true
        · exact hactivated_in_db2 y hy hsely
        · refine ⟨y, ?_, rfl, hyact⟩
          rw [hdb2]
          have heq : (fun v =>
              if (adSelect seeds (adMissingActivated db (adGatherTasksToGet seeds sorted))
                  sorted).any (fun s => s.Id == v.Id) then
                activatedDependencyUpdate caller now v
              else v) y = y := by
            simp only [hsely, if_false, Bool.false_eq_true]
          exact heq ▸ List.mem_map_of_mem _ hy
      have htransfer : ∀ x ∈ adSelect seeds
          (adMissingActivated db (adGatherTasksToGet seeds sorted)) sorted,
          ∀ d ∈ x.DependsOn, seeds.contains d.TaskId = true ∨
            ∃ w ∈ db2, w.Id = d.TaskId ∧ w.Activated = true := by
        intro x hx d hd
        rcases (adSelect_mem hx).2.2.2 d hd with hcase | hcase | hcase
        · right
          obtain ⟨s, hs, hsid⟩ := List.any_eq_true.mp hcase
          have hs_db : s ∈ db := hsorted_db s (adSelect_mem hs).1
          have hs_sel : (adSelect seeds
              (adMissingActivated db (adGatherTasksToGet seeds sorted)) sorted).any
              (fun q => q.Id == s.Id) = true :=
            List.any_eq_true.mpr ⟨s, hs, by simp⟩
          obtain ⟨w, hw, hwid, hwact⟩ := hactivated_in_db2 s hs_db hs_sel
          exact ⟨w, hw, hwid.trans (by simpa using hsid), hwact⟩
        · exact Or.inl hcase
        · right
          obtain ⟨y, hy, hyid, hyact⟩ := adMissingActivated_sound hcase
          obtain ⟨w, hw, hwid, hwact⟩ := halready_in_db2 y hy hyact
          exact ⟨w, hw, hwid.trans hyid, hwact⟩
      have hu_of : ∀ (i : Nat) (t u : Task), db[i]? = some t → db2[i]? = some u →
          u = (if (adSelect seeds
              (adMissingActivated db (adGatherTasksToGet seeds sorted)) sorted).any
              (fun s => s.Id == t.Id) then
            activatedDependencyUpdate caller now t
          else t) := by
        intro i t u hti hui
        rw [hdb2, List.getElem?_map, hti] at hui
        exact (Option.some.inj hui).symm
      have hsel_of_id : ∀ t ∈ db, (adSelect seeds
          (adMissingActivated db (adGatherTasksToGet seeds sorted)) sorted).any
          (fun s => s.Id == t.Id) = true →
          t ∈ adSelect seeds
            (adMissingActivated db (adGatherTasksToGet seeds sorted)) sorted := by
        intro t ht hsel
        obtain ⟨s, hs, hsid⟩ := List.any_eq_true.mp hsel
        have hs_db : s ∈ db := hsorted_db s (adSelect_mem hs).1
        have : s = t := hinj s hs_db t ht (by simpa using hsid)
        exact this ▸ hs
      constructor
      · intro i t u hti hui hact hdea huact d hd
        have hu := hu_of i t u hti hui
        by_cases hselt : (adSelect seeds
            (adMissingActivated db (adGatherTasksToGet seeds sorted)) sorted).any
            (fun s => s.Id == t.Id) = true
        · exact htransfer t (hsel_of_id t (List.getElem?_mem hti) hselt) d hd
        · rw [if_neg hselt] at hu
          rw [hu] at huact
          exact absurd huact (by simp [hact])
      · intro i t u hti hui hact hdea hbad
        have hu := hu_of i t u hti hui
        by_cases hselt : (adSelect seeds
            (adMissingActivated db (adGatherTasksToGet seeds sorted)) sorted).any
            (fun s => s.Id == t.Id) = true
        · exfalso
          obtain ⟨d, hd, hdseed, hdnone⟩ := hbad
          rcases htransfer t (hsel_of_id t (List.getElem?_mem hti) hselt) d hd with
            hseed | ⟨w, hw, hwid, hwact⟩
          · rw [hdseed] at hseed
            exact absurd hseed (by simp)
          · have := hdnone w hw hwid
            rw [hwact] at this
            exact absurd this (by simp)
        · rw [if_neg hselt] at hu
          exact hu

def seededDependentTask : Task :=
  { Id := "B", Activated := false, DeactivatedForDependency := true,
    DependsOn := [⟨"A", "", false, false⟩] }

def chainedDependentTask : Task :=
  { Id := "C", Activated := false, DeactivatedForDependency := true,
    DependsOn := [⟨"B", "", false, false⟩] }

def activationResultStore : List Task :=
  [{ seededDependentTask with
      Activated := true
      DeactivatedForDependency := false
      ActivatedBy := "caller"
      ActivatedTime := 3 },
   { chainedDependentTask with
      Activated := true
      DeactivatedForDependency := false
      ActivatedBy := "caller"
      ActivatedTime := 3 }]

/-- C1 witness: a two-task chain B ← C deactivated for the dependency A;
activating with seed A activates both, and the soundness conclusions hold
at the concrete result store. -/
theorem activateDeactivatedDependencies_sound_witness :
    (∀ (i : Nat) (t u : Task), [seededDependentTask, chainedDependentTask][i]? = some t →
       activationResultStore[i]? = some u →
       t.Activated = false → t.DeactivatedForDependency = true →
       u.Activated = true →
       ∀ d ∈ t.DependsOn, (["A"] : List String).contains d.TaskId = true ∨
         ∃ w ∈ activationResultStore, w.Id = d.TaskId ∧ w.Activated = true) ∧
    ActivateDeactivatedDependencies [seededDependentTask, chainedDependentTask]
      ["A"] "caller" 3 = some activationResultStore :=
  ⟨(activateDeactivatedDependencies_sound
      [seededDependentTask, chainedDependentTask] ["A"] "caller" 3
      activationResultStore (by decide) (by rfl)).1,
   by rfl⟩

end task
